import Mathlib

/-!
Shallow embedding of the plugin-manager / self-update core of the
`it-mana/integrations` repository, together with theorems settling the
frozen claims about it.

Sources embedded:
* `apps/connect/source/ftrack_connect/plugin_manager/__init__.py`
* `apps/connect/source/ftrack_connect/ui/update_dialog.py`
* `apps/connect/source/ftrack_connect/__main__.py`
* `projects/connect-mana-location/resource/hook/connect_plugin_hook.py`

Strings are modelled as `List Char` (Python text operations such as
`strip`, `split`, `startswith`, `in`, `lower`, `capitalize` are modelled
character-by-character), mappings as association lists, and fallible
code by explicit `Option` / `Except` values.
-/

namespace Integrations

/-! ## Python string primitives (modelled on `List Char`) -/

/-- Python whitespace characters, as recognised by `str.strip()`. -/
def pyIsWS (c : Char) : Bool :=
  c = ' ' || c = '\t' || c = '\n' || c = '\x0d' || c = '\x0b' || c = '\x0c'

/-- Model of Python `str.strip()`: drop whitespace at both ends. -/
def pstrip (l : List Char) : List Char :=
  ((l.dropWhile pyIsWS).reverse.dropWhile pyIsWS).reverse

/-- Model of Python `str.split(sep)` for a one-character separator:
always returns at least one (possibly empty) segment. -/
def splitOnChar (sep : Char) : List Char → List (List Char)
  | [] => [[]]
  | c :: rest =>
    if c = sep then [] :: splitOnChar sep rest
    else
      match splitOnChar sep rest with
      | [] => [[c]]
      | seg :: segs => (c :: seg) :: segs

/-- Model of Python `sep.join(parts)` for a one-character separator. -/
def joinChar (sep : Char) : List (List Char) → List Char
  | [] => []
  | [seg] => seg
  | seg :: rest => seg ++ sep :: joinChar sep rest

/-- Model of Python `str.startswith(pat)`. -/
def startsWithL (pat l : List Char) : Bool :=
  List.isPrefixOf pat l

/-- Model of the Python substring test `needle in hay`. -/
def containsSub (needle : List Char) : List Char → Bool
  | [] => List.isPrefixOf needle []
  | c :: rest => List.isPrefixOf needle (c :: rest) || containsSub needle rest

/-- Model of Python `str.lower()` (ASCII fragment). -/
def plower (l : List Char) : List Char :=
  l.map Char.toLower

/-- Model of Python `str.capitalize()` (ASCII fragment): first character
upper-cased, the rest lower-cased. -/
def pcapitalize : List Char → List Char
  | [] => []
  | c :: rest => c.toUpper :: rest.map Char.toLower

/-! ## Data model of the plugin manager

`STATUSES` lives in `ftrack_connect.plugin_manager.processor`; the
manager code only ever compares a stored status for equality against
these four constants, so they are embedded as an inductive type. -/

/-- Plugin status constants (`STATUSES` in
`ftrack_connect/plugin_manager/processor.py`): NEW, UPDATE, DOWNLOAD
and the implicit up-to-date state. -/
inductive PStatus where
  | NEW
  | UPDATE
  | DOWNLOAD
  | UP_TO_DATE
deriving DecidableEq, Repr

/-- One row of the plugin list model: the item data the manager reads
through `ROLES.PLUGIN_STATUS`, `ROLES.PLUGIN_NAME`,
`ROLES.PLUGIN_VERSION`. -/
structure PluginItem where
  status : PStatus
  name : String
  version : String
deriving DecidableEq, Repr

/-- One record of the `installed_plugins` list handed to
`_on_plugin_fetch_callback`: dictionaries carrying at least `name`,
`version`, `incompatible` and `deprecated`. -/
structure InstalledPlugin where
  name : String
  version : String
  incompatible : Bool
  deprecated : Bool
deriving DecidableEq, Repr

/-! ## `_count_plugins_to_process` and the auto-processing selection -/

/-- Model of `PluginManager._count_plugins_to_process(do_install,
do_update)`: counts items the auto pass will act on, branch for branch
as in the source (NEW needs `do_install`, UPDATE needs `do_update`,
DOWNLOAD is treated as a new install and needs `do_install`). -/
def count_plugins_to_process (items : List PluginItem)
    (do_install do_update : Bool) : Nat :=
  match items with
  | [] => 0
  | item :: rest =>
    (if item.status = PStatus.NEW ∧ do_install then 1
     else if item.status = PStatus.UPDATE ∧ do_update then 1
     else if item.status = PStatus.DOWNLOAD then
       (if do_install then 1 else 0)
     else 0)
    + count_plugins_to_process rest do_install do_update

/-- Entry of the `plugins_to_process` list built by
`_on_auto_install_update_callback`: the item together with the action
label and version-info string computed there. -/
structure ProcessEntry where
  item : PluginItem
  action : String
  plugin_name : String
  version_info : String
deriving DecidableEq, Repr

/-- Model of the version-info lookup inside
`_on_auto_install_update_callback`: the first installed plugin whose
name matches gives "installed -> available", defaulting the installed
version to "0.0.0" is not needed since `version` is always present in
the embedded record. -/
def update_version_info (installed : List InstalledPlugin)
    (plugin_name available_version : String) : String :=
  match installed.find? (fun p => p.name = plugin_name) with
  | some p => p.version ++ " -> " ++ available_version
  | none => "v" ++ available_version

/-- Model of the `plugins_to_process` construction loop of
`_on_auto_install_update_callback` (the selection part, before any
processing happens). -/
def plugins_to_process (installed : List InstalledPlugin)
    (items : List PluginItem) (do_install do_update : Bool) :
    List ProcessEntry :=
  match items with
  | [] => []
  | item :: rest =>
    let tail := plugins_to_process installed rest do_install do_update
    if item.status = PStatus.NEW ∧ do_install then
      { item := item, action := "Installing", plugin_name := item.name,
        version_info := "v" ++ item.version } :: tail
    else if item.status = PStatus.UPDATE ∧ do_update then
      { item := item, action := "Updating", plugin_name := item.name,
        version_info := update_version_info installed item.name item.version }
        :: tail
    else if item.status = PStatus.DOWNLOAD then
      (if do_install then
        { item := item, action := "Installing", plugin_name := item.name,
          version_info := "v" ++ item.version } :: tail
       else tail)
    else tail

/-! ## The `initialised` gate and `refresh()`

`refresh()` (decorated `@asynchronous`) emits `fetchPlugins` with
`_on_plugin_fetch_callback` and, at the end of its body, resets
`self._initialised = False` (line 233).  The fetch callback then runs
`_check_and_run_auto_operations`, which returns early when
`_initialised` is already true and otherwise runs the auto
install/update processing (when there is work) and sets `_initialised`
to true.  The callback is delivered after the emitting body has
finished (queued cross-thread signal), so one refresh pass is the
refresh body followed by the fetch callback. -/

/-- Driver state observed by the gate: the `_initialised` flag plus a
counter of how many refresh passes actually invoked the auto
install/update processing. -/
structure GateState where
  initialised : Bool
  autoRuns : Nat
deriving DecidableEq, Repr

/-- State of a freshly constructed `PluginManager` (`__init__` sets
`self._initialised = False`). -/
def initGateState : GateState := { initialised := false, autoRuns := 0 }

/-- Model of `_check_and_run_auto_operations`: return early when
`_initialised` is set; otherwise (auto-install and auto-update are both
hard-coded `"true"` in the source) run
`_on_auto_install_update_callback` when `_count_plugins_to_process`
is positive, and finally set `_initialised` to true. -/
def check_and_run_auto_operations (items : List PluginItem)
    (s : GateState) : GateState :=
  if s.initialised then s
  else
    let total := count_plugins_to_process items true true
    { initialised := true,
      autoRuns := s.autoRuns + (if total > 0 then 1 else 0) }

/-- Model of one full refresh pass: the `refresh()` body (whose last
statement resets `_initialised` to false) followed by the queued
`_on_plugin_fetch_callback`, which calls
`_check_and_run_auto_operations`. -/
def refreshPass (items : List PluginItem) (s : GateState) : GateState :=
  check_and_run_auto_operations items { s with initialised := false }

/-- Iterated refresh calls on one `PluginManager` instance. -/
def refreshPasses (items : List PluginItem) (n : Nat) : GateState :=
  match n with
  | 0 => initGateState
  | Nat.succ m => refreshPass items (refreshPasses items m)

/-! ## Batch processing

The auto path (`_on_auto_install_update_callback`, lines 472-488)
wraps each entry in its own `try/except` and `continue`s, so a failing
entry is logged and the loop moves on.  The user-confirmed path
(`on_apply_changes_confirmed_callback`, lines 618-637) wraps the whole
loop in a single `try`, so the first raising entry jumps to the
`except` clause, which emits `installation_failed` and ends the batch.
An entry is represented by the boolean "does
`self._plugin_processor.process(item)` raise on it". -/

/-- Outcome recorded for one entry of a batch. -/
inductive Outcome where
  | processed
  | failed
deriving DecidableEq, Repr

/-- Model of the processing loop of `_on_auto_install_update_callback`:
each entry is attempted inside its own exception handler, so every
entry yields an outcome and the loop never aborts early. -/
def autoProcessBatch : List Bool → List Outcome
  | [] => []
  | raises :: rest =>
    (if raises then Outcome.failed else Outcome.processed)
      :: autoProcessBatch rest

/-- Model of the `processed_count` accumulation in the same loop: the
counter is incremented before `process(item)` is called and the
exception handler `continue`s, so every entry is counted. -/
def autoProcessedCount : List Bool → Nat → Nat
  | [], acc => acc
  | _ :: rest, acc => autoProcessedCount rest (acc + 1)

/-- Model of the checked-item loop of
`on_apply_changes_confirmed_callback`: one `try` around the whole
loop, so a raising entry produces no further per-entry outcomes, the
batch stops and `installation_failed` is emitted (second component
true). Entries reached before the failure are processed; the failing
entry and every later entry get no per-entry outcome (`none`). -/
def applyProcessBatch : List Bool → List (Option Outcome) × Bool
  | [] => ([], false)
  | raises :: rest =>
    if raises then
      (none :: rest.map (fun _ => (none : Option Outcome)), true)
    else
      let tail := applyProcessBatch rest
      (some Outcome.processed :: tail.1, tail.2)

/-! ## End of the auto pass: summary and restart request -/

/-- Result of the tail of `_on_auto_install_update_callback` plus
`_show_auto_install_restart_message`. -/
structure AutoFlowResult where
  processedCount : Nat
  summaryShown : Bool
  restartEmitted : Bool
deriving DecidableEq, Repr

/-- Model of `_on_auto_install_update_callback` after the selection:
return immediately when there is nothing to process; otherwise run the
per-entry loop (every entry is counted, failures are contained), then
show the restart summary message exactly when `processed_count > 0`,
and emit `requestConnectRestart` only when the message box is answered
Yes. -/
def autoInstallFlow (selected : List Bool) (answerYes : Bool) :
    AutoFlowResult :=
  if selected.length = 0 then
    { processedCount := 0, summaryShown := false, restartEmitted := false }
  else
    let pc := autoProcessedCount selected 0
    { processedCount := pc,
      summaryShown := decide (pc > 0),
      restartEmitted := decide (pc > 0) && answerYes }

/-! ## Version comparison (`_is_newer_version`)

The source calls `packaging.version.parse` on both strings and
compares with `>`; any exception (unparseable version, missing
library) falls back to Python string comparison.  The embedding models
`packaging` on the dotted-numeric fragment: a string of the shape
`n1.n2. ... .nk` (each segment a non-empty digit run) parses to its
list of numeric components, anything else raises (`none`).  Parsed
versions compare by numeric components with implicit zero padding,
exactly as `packaging` compares release segments. -/

/-- Numeric value of a decimal digit, `none` for a non-digit. -/
def digitVal (c : Char) : Option Nat :=
  if '0' ≤ c ∧ c ≤ '9' then some (c.toNat - '0'.toNat) else none

/-- Parse a non-empty all-digit segment to its numeric value. -/
def parseNatSeg : List Char → Option Nat
  | [] => none
  | l => go l 0
where
  go : List Char → Nat → Option Nat
    | [], acc => some acc
    | c :: rest, acc =>
      match digitVal c with
      | some d => go rest (acc * 10 + d)
      | none => none

/-- Model of `packaging.version.parse` restricted to dotted-numeric
release versions: succeeds exactly on `n1.n2. ... .nk`, giving the
component list; everything else raises (`none`). -/
def parse_version (s : String) : Option (List Nat) :=
  (splitOnChar '.' s.toList).mapM parseNatSeg

/-- Comparison of two parsed release-component lists, as
`packaging.version.Version.__gt__` compares release segments: compare
component-wise, padding the shorter list with zeros. -/
def releaseGt : List Nat → List Nat → Bool
  | [], [] => false
  | [], _ :: _ => false
  | a :: arest, [] => a > 0 || releaseGt arest []
  | a :: arest, b :: brest =>
    if a > b then true
    else if a < b then false
    else releaseGt arest brest

/-- Model of Python string comparison `a > b` (code-point
lexicographic order on the characters). -/
def pyStrGt (a b : String) : Bool :=
  decide (b < a)

/-- Model of `PluginManager._is_newer_version(available_version,
installed_version)`: parse both via `packaging`, compare with `>`;
on any exception fall back to string comparison. -/
def is_newer_version (available_version installed_version : String) : Bool :=
  match parse_version available_version, parse_version installed_version with
  | some a, some b => releaseGt a b
  | _, _ => pyStrGt available_version installed_version

/-- Specification-side comparison, written from the claim's words:
pad both component lists with zeros to a common length, then ask
whether the available components are strictly greater than the
installed components in the component-wise (lexicographic numeric)
order. -/
def specCompWiseGreater (available installed : List Nat) : Prop :=
  List.Lex (· < ·)
    (installed
      ++ List.replicate
          (max available.length installed.length - installed.length) 0)
    (available
      ++ List.replicate
          (max available.length installed.length - available.length) 0)

/-! ## Conflict handling in `_on_apply_changes`

When incompatible (resp. deprecated) installed plugins exist, a
Yes/No/Cancel message box is shown; Yes keeps the names in the archive
list, No empties that list, Cancel returns from the handler without
emitting `apply_changes`.  The user's answers are inputs of the
model; the result is `none` when the handler returns early and
`some archive_list` when `apply_changes` is emitted with that list. -/

/-- The three buttons of the conflict message boxes. -/
inductive ConflictAnswer where
  | yes
  | no
  | cancel
deriving DecidableEq, Repr

/-- Model of `_get_incompatible_plugin_names`. -/
def get_incompatible_plugin_names (installed : List InstalledPlugin) :
    List String :=
  (installed.filter (fun p => p.incompatible)).map (fun p => p.name)

/-- Model of `_get_deprecated_plugin_names`. -/
def get_deprecated_plugin_names (installed : List InstalledPlugin) :
    List String :=
  (installed.filter (fun p => p.deprecated)).map (fun p => p.name)

/-- Model of one conflict prompt of `_on_apply_changes`: shown only
when the name list is non-empty; Yes keeps the list, No replaces it
with the empty list, Cancel makes the handler return. -/
def resolveConflict (names : List String) (answer : ConflictAnswer) :
    Option (List String) :=
  if names.isEmpty then some names
  else
    match answer with
    | ConflictAnswer.yes => some names
    | ConflictAnswer.no => some []
    | ConflictAnswer.cancel => none

/-- Model of `_on_apply_changes`: resolve the incompatible prompt,
then the deprecated prompt, then emit `apply_changes` with the
concatenation of the two surviving archive lists; `none` means the
handler returned without emitting. -/
def on_apply_changes (installed : List InstalledPlugin)
    (answerIncompatible answerDeprecated : ConflictAnswer) :
    Option (List String) :=
  match resolveConflict (get_incompatible_plugin_names installed)
      answerIncompatible with
  | none => none
  | some incompatNames =>
    match resolveConflict (get_deprecated_plugin_names installed)
        answerDeprecated with
    | none => none
    | some deprNames => some (incompatNames ++ deprNames)

/-! ## Self-update download and cancellation

`download_file_with_progress` iterates the response chunks, writes
each chunk to the destination file and then calls the progress
callback; the loop body never reads `progress_dialog.cancelled`.  The
callback installed by `_on_auto_update_clicked` checks the flag only
to decide whether to update the progress UI, and its
`processEvents()` call is where a Cancel click can take effect.  After
`download_file_with_progress` returns, `_on_auto_update_clicked`
checks `progress_dialog.cancelled`: if set, it closes the dialog,
unlinks the temporary file and returns (no failure dialog).
A chunk is modelled by its size together with whether the user clicks
Cancel during that chunk's progress callback. -/

/-- State threaded through the download loop: the chunk sizes written
to the destination file so far, the `cancelled` flag of the progress
dialog, and how many progress-UI updates were displayed. -/
structure DownloadState where
  written : List Nat
  cancelled : Bool
  uiUpdates : Nat
deriving DecidableEq, Repr

/-- State at the start of a download. -/
def initDownloadState : DownloadState :=
  { written := [], cancelled := false, uiUpdates := 0 }

/-- Model of one iteration of the chunk loop of
`download_file_with_progress` together with the progress callback of
`_on_auto_update_clicked`: the chunk is written unconditionally; the
progress callback updates the UI only when the flag is still clear,
and a Cancel click during its `processEvents()` sets the flag. -/
def downloadChunkStep (cancelClickHere : Bool) (size : Nat)
    (s : DownloadState) : DownloadState :=
  let s1 := { s with written := s.written ++ [size] }
  if s1.cancelled then s1
  else
    { s1 with
      uiUpdates := s1.uiUpdates + 1,
      cancelled := cancelClickHere }

/-- Model of the whole chunk loop of `download_file_with_progress`:
fold the step over the chunk stream. -/
def downloadLoop (chunks : List (Bool × Nat)) (s : DownloadState) :
    DownloadState :=
  match chunks with
  | [] => s
  | (click, size) :: rest => downloadLoop rest (downloadChunkStep click size s)

/-- Outcome of the auto-update flow as far as the cancellation check
in `_on_auto_update_clicked` is concerned. -/
inductive UpdateOutcome where
  | cancelled
  | readyToInstall
  | downloadFailed
deriving DecidableEq, Repr

/-- Model of the code in `_on_auto_update_clicked` directly after
`download_file_with_progress` returns: when the dialog was cancelled
the temporary file is unlinked and the handler returns (outcome
cancelled, no file left on disk); otherwise the success flag decides
between the install flow and the download-error dialog, the
downloaded file staying on disk. -/
def autoUpdateAfterDownload (s : DownloadState) (success : Bool) :
    UpdateOutcome × Bool :=
  if s.cancelled then (UpdateOutcome.cancelled, false)
  else if success then (UpdateOutcome.readyToInstall, true)
  else (UpdateOutcome.downloadFailed, true)

/-! ## Startup self-update check (`main_connect`)

Lines 103-131 of `__main__.py`: unless `--skip-version-check` is
passed, `check_connect_version_update` is called inside a `try` whose
`except Exception` clause only logs, so the section always falls
through to the rest of startup.  `_pending_update_info` is set only
when the check succeeded, reported an update and `--silent` is not
set; the update dialog is later shown only when
`_pending_update_info` is set. -/

/-- The fields of the update-check result that `main_connect` reads. -/
structure UpdateInfo where
  has_update : Bool
  message : String
deriving DecidableEq, Repr

/-- Model of the update-check section of `main_connect`: the outcome
of `check_connect_version_update` is an `Except` (exceptions become
`Except.error`); the result is the `_pending_update_info` value after
the section, and startup always continues past the section because the
handler swallows every exception. -/
def startupUpdateCheck (skip_version_check silent : Bool)
    (checkResult : Except String UpdateInfo) : Option UpdateInfo :=
  if skip_version_check then none
  else
    match checkResult with
    | Except.error _ => none
    | Except.ok info =>
      if info.has_update && !silent then some info else none

/-! ## Environment hook (`append_path`)

`connect_plugin_hook.append_path(path, key, environment)` sets
`environment[key]` to `os.pathsep.join([environment[key], path])`,
falling back to `environment[key] = path` when the key raises
`KeyError`.  The Python dict is modelled as an association list with
first-match lookup and in-place update of the first matching key. -/

/-- First-match lookup in the environment mapping (Python
`environment[key]`, with `none` for `KeyError`). -/
def envLookup (env : List (String × String)) (key : String) :
    Option String :=
  match env with
  | [] => none
  | (k, v) :: rest => if k = key then some v else envLookup rest key

/-- Model of Python `environment[key] = value`: replace the value at
the first binding of `key`, or append a new binding. -/
def envSet (env : List (String × String)) (key value : String) :
    List (String × String) :=
  match env with
  | [] => [(key, value)]
  | (k, v) :: rest =>
    if k = key then (k, value) :: rest else (k, v) :: envSet rest key value

/-- Model of `append_path(path, key, environment)`; `sep` stands for
the platform's `os.pathsep`. -/
def append_path (sep : String) (path key : String)
    (env : List (String × String)) : List (String × String) :=
  match envLookup env key with
  | some old => envSet env key (old ++ sep ++ path)
  | none => envSet env key path

/-! ## Release-notes reduction (`_parse_markdown_to_bullets`,
`_format_release_notes`)

The per-line branch logic of the two extraction loops is factored into
one function per loop body; the loops themselves are `filterMap`s of
those bodies over the stripped-and-split input, exactly as in the
source. -/

/-- Body of the main extraction loop of `_parse_markdown_to_bullets`
for one raw line: strip it; skip empty lines and headers; turn
markdown list items with non-empty content into bullets; skip lines
starting with image or link markdown; keep remaining lines shorter
than 100 characters as bullets. -/
def bullet_of_line (raw : List Char) : Option (List Char) :=
  let line := pstrip raw
  if line.isEmpty then none
  else if startsWithL ['#'] line then none
  else if startsWithL ['-', ' '] line || startsWithL ['*', ' '] line then
    let clean := pstrip (line.drop 2)
    if clean.isEmpty then none else some ('•' :: ' ' :: clean)
  else if startsWithL ['!', '['] line then none
  else if startsWithL ['['] line then none
  else if line.length < 100 then some ('•' :: ' ' :: line)
  else none

/-- The fixed improvement-keyword set of the fallback extraction. -/
def improvementKeywords : List (List Char) :=
  [['f', 'i', 'x'], ['a', 'd', 'd'],
   ['i', 'm', 'p', 'r', 'o', 'v', 'e'],
   ['u', 'p', 'd', 'a', 't', 'e'],
   ['e', 'n', 'h', 'a', 'n', 'c', 'e'],
   ['s', 'u', 'p', 'p', 'o', 'r', 't'],
   ['n', 'e', 'w']]

/-- Body of the keyword-fallback loop of `_parse_markdown_to_bullets`
for one raw line: strip and lower-case it; keep it as a capitalised
bullet when it contains one of the improvement keywords and is
shorter than 100 characters. -/
def fallback_bullet_of_line (raw : List Char) : Option (List Char) :=
  let line := plower (pstrip raw)
  if (improvementKeywords.any (fun kw => containsSub kw line))
      && line.length < 100 then
    some ('•' :: ' ' :: pcapitalize line)
  else none

/-- The fixed generic three-line fallback text of
`_parse_markdown_to_bullets`. -/
def genericBullets3 : List Char :=
  ("• New features and improvements\n"
    ++ "• Bug fixes and stability enhancements\n"
    ++ "• Latest security updates").toList

/-- The generic two-line text returned by `_format_release_notes`
when the release notes are empty or whitespace. -/
def genericBullets2 : List Char :=
  ("• New features and improvements\n"
    ++ "• Bug fixes and stability enhancements").toList

/-- Model of `UpdateDialog._parse_markdown_to_bullets`: strip and
split the text into lines, run the main extraction, fall back to the
keyword extraction when it produced nothing, fall back to the generic
text when both produced nothing, and join at most the first five
bullets. -/
def parse_markdown_to_bullets (markdown_text : List Char) : List Char :=
  let lines := splitOnChar '\n' (pstrip markdown_text)
  let bullet_points := lines.filterMap bullet_of_line
  let bullet_points :=
    if bullet_points.isEmpty then lines.filterMap fallback_bullet_of_line
    else bullet_points
  if bullet_points.isEmpty then genericBullets3
  else joinChar '\n' (bullet_points.take 5)

/-- The truncation marker line of `_format_release_notes`. -/
def andMoreLine : List Char :=
  ("• ...and more improvements").toList

/-- Model of `UpdateDialog._format_release_notes`: empty or
whitespace-only notes give the generic two-line text; otherwise the
parsed bullets are re-split into lines and, if more than five, cut to
four plus the truncation marker. -/
def format_release_notes (release_notes : List Char) : List Char :=
  if (pstrip release_notes).isEmpty then genericBullets2
  else
    let formatted := parse_markdown_to_bullets release_notes
    let lines := splitOnChar '\n' formatted
    let lines :=
      if lines.length > 5 then lines.take 4 ++ [andMoreLine] else lines
    joinChar '\n' lines

/-! ## Helper lemmas -/

theorem autoProcessedCount_eq (l : List Bool) :
    ∀ acc, autoProcessedCount l acc = acc + l.length := by
  induction l with
  | nil => intro acc; simp [autoProcessedCount]
  | cons _ rest ih =>
    intro acc
    simp [autoProcessedCount, ih]
    omega

theorem autoProcessBatch_eq_map (fails : List Bool) :
    autoProcessBatch fails
      = fails.map (fun r => if r then Outcome.failed else Outcome.processed) := by
  induction fails with
  | nil => rfl
  | cons r rest ih => simp [autoProcessBatch, ih]

theorem applyProcessBatch_clean (fails : List Bool) (h : true ∉ fails) :
    applyProcessBatch fails
      = (fails.map (fun _ => some Outcome.processed), false) := by
  induction fails with
  | nil => rfl
  | cons r rest ih =>
    simp only [List.mem_cons, not_or] at h
    have hr : r = false := by
      cases r
      · rfl
      · exact absurd rfl (Ne.symm h.1)
    subst hr
    simp [applyProcessBatch, ih h.2]

theorem downloadChunkStep_written (click : Bool) (size : Nat)
    (s : DownloadState) :
    (downloadChunkStep click size s).written = s.written ++ [size] := by
  by_cases h : s.cancelled = true <;> simp [downloadChunkStep, h]

theorem downloadLoop_written (chunks : List (Bool × Nat)) :
    ∀ s, (downloadLoop chunks s).written
      = s.written ++ chunks.map Prod.snd := by
  induction chunks with
  | nil => intro s; simp [downloadLoop]
  | cons c rest ih =>
    intro s
    simp [downloadLoop, ih, downloadChunkStep_written]

theorem downloadLoop_cancelled (chunks : List (Bool × Nat)) :
    ∀ s, s.cancelled = true →
      downloadLoop chunks s
        = { written := s.written ++ chunks.map Prod.snd,
            cancelled := true, uiUpdates := s.uiUpdates } := by
  induction chunks with
  | nil => intro s h; simp [downloadLoop, ← h]
  | cons c rest ih =>
    intro s h
    have hstep : downloadChunkStep c.1 c.2 s
        = { s with written := s.written ++ [c.2] } := by
      unfold downloadChunkStep
      simp [h]
    simp only [downloadLoop, hstep]
    rw [ih _ (by simpa using h)]
    simp

/-! ## Claims C1, C2, C3 -/

/-- Claim C1 (code_bug): the claim states the `initialised` gate lets
`_check_and_run_auto_operations` run the auto install/update
processing during at most one refresh pass per process lifetime.  The
code violates this: `refresh()` resets `self._initialised = False` at
the end of every call, so with one processable plugin present, two
refresh calls on one `PluginManager` run the auto processing twice. -/
theorem c1_gate_refires_on_second_refresh :
    (refreshPasses
      [{ status := PStatus.NEW, name := "pluginA", version := "1.0.0" }]
      2).autoRuns = 2 := by
  decide

/-- Claim C2 (counterexample): in the user-confirmed apply path
(`on_apply_changes_confirmed_callback`), a batch of two entries whose
first entry raises gives the second entry no processed-or-failed
outcome at all — the single batch-level handler fires
(`installation_failed`, second component `true`) and the loop never
reaches entry 1, refuting the claim that both paths give every other
entry an outcome. -/
theorem c2_apply_path_aborts_batch :
    applyProcessBatch [true, false] = ([none, none], true) := by
  decide

/-- Claim C2 (amended): per-entry failure containment holds for the
auto-processing path — every entry gets a processed-or-failed outcome
and the loop never aborts early — while the user-confirmed apply path
catches failures at the batch level only: entries before the first
failing entry are processed, the failing entry and all later entries
get no per-entry outcome, and a single batch failure is reported; a
batch with no failing entry processes every entry. -/
theorem c2_batch_failure_semantics :
    (∀ fails : List Bool,
      autoProcessBatch fails
        = fails.map (fun r => if r then Outcome.failed else Outcome.processed))
    ∧ (∀ pre post : List Bool, true ∉ pre →
        applyProcessBatch (pre ++ true :: post)
          = (pre.map (fun _ => some Outcome.processed)
              ++ none :: post.map (fun _ => (none : Option Outcome)), true))
    ∧ (∀ fails : List Bool, true ∉ fails →
        applyProcessBatch fails
          = (fails.map (fun _ => some Outcome.processed), false)) := by
  refine ⟨autoProcessBatch_eq_map, ?_, applyProcessBatch_clean⟩
  intro pre post hpre
  induction pre with
  | nil => simp [applyProcessBatch]
  | cons r rest ih =>
    simp only [List.mem_cons, not_or] at hpre
    have hr : r = false := by
      cases r
      · rfl
      · exact absurd rfl (Ne.symm hpre.1)
    subst hr
    simp [applyProcessBatch, ih hpre.2]

/-- Witness for the amended claim C2 at a concrete batch. -/
theorem c2_batch_failure_semantics_witness :
    applyProcessBatch [false, true, false]
      = ([some Outcome.processed, none, none], true)
    ∧ applyProcessBatch [false, false]
      = ([some Outcome.processed, some Outcome.processed], false) := by
  constructor
  · have h := c2_batch_failure_semantics.2.1 [false] [false] (by decide)
    simpa using h
  · have h := c2_batch_failure_semantics.2.2 [false, false] (by decide)
    simpa using h

/-- Claim C3 (counterexample): the claim states the cancel flag is
checked between successive chunks so that cancelling mid-stream stops
the download before further chunks are written.  In the code the chunk
loop of `download_file_with_progress` never reads the flag: with two
chunks and the user cancelling during the first chunk's progress
callback, the final state is cancelled yet the second chunk was still
written to the file. -/
theorem c3_download_ignores_cancel_between_chunks :
    downloadLoop [(true, 10), (false, 20)] initDownloadState
      = { written := [10, 20], cancelled := true, uiUpdates := 1 } := by
  decide

/-- Claim C3 (amended): the cancel flag is not consulted by the
download loop — every chunk is written regardless of cancellation,
and once the flag is set no further progress-UI updates occur — and
cancellation takes effect only after the stream completes: when the
flag is set at the post-download check, the artifact file is deleted
from disk and the flow reports a cancelled outcome rather than a
failed one. -/
theorem c3_cancellation_semantics :
    (∀ chunks : List (Bool × Nat),
      (downloadLoop chunks initDownloadState).written = chunks.map Prod.snd)
    ∧ (∀ chunks : List (Bool × Nat), ∀ s : DownloadState,
        s.cancelled = true →
        downloadLoop chunks s
          = { written := s.written ++ chunks.map Prod.snd,
              cancelled := true, uiUpdates := s.uiUpdates })
    ∧ (∀ s : DownloadState, ∀ success : Bool, s.cancelled = true →
        autoUpdateAfterDownload s success
          = (UpdateOutcome.cancelled, false)) := by
  refine ⟨?_, downloadLoop_cancelled, ?_⟩
  · intro chunks
    simpa [initDownloadState] using downloadLoop_written chunks initDownloadState
  · intro s success h
    simp [autoUpdateAfterDownload, h]

/-- Witness for the amended claim C3 at a concrete cancelled run. -/
theorem c3_cancellation_semantics_witness :
    downloadLoop [(false, 7)] { written := [3], cancelled := true, uiUpdates := 2 }
      = { written := [3, 7], cancelled := true, uiUpdates := 2 }
    ∧ autoUpdateAfterDownload
        { written := [3, 7], cancelled := true, uiUpdates := 2 } true
      = (UpdateOutcome.cancelled, false) := by
  constructor
  · exact c3_cancellation_semantics.2.1 [(false, 7)]
      { written := [3], cancelled := true, uiUpdates := 2 } rfl
  · exact c3_cancellation_semantics.2.2
      { written := [3, 7], cancelled := true, uiUpdates := 2 } true rfl

/-! ## Lexicographic comparison lemmas for claim C4 -/

theorem lex_cons_cons_iff (a b : Nat) (l1 l2 : List Nat) :
    List.Lex (· < ·) (a :: l1) (b :: l2)
      ↔ a < b ∨ (a = b ∧ List.Lex (· < ·) l1 l2) := by
  constructor
  · intro h
    cases h with
    | rel h => exact Or.inl h
    | cons h => exact Or.inr ⟨rfl, h⟩
  · rintro (h | ⟨rfl, h⟩)
    · exact List.Lex.rel h
    · exact List.Lex.cons h

theorem not_lex_self_zeros (ys : List Nat) :
    ¬ List.Lex (· < ·) ys (List.replicate ys.length 0) := by
  induction ys with
  | nil => intro h; cases h
  | cons b bs ih =>
    intro h
    rw [List.length_cons, List.replicate_succ] at h
    rcases (lex_cons_cons_iff b 0 bs _).mp h with h1 | ⟨_, h2⟩
    · omega
    · exact ih h2

theorem releaseGt_nil_iff (xs : List Nat) :
    releaseGt xs [] = true
      ↔ List.Lex (· < ·) (List.replicate xs.length 0) xs := by
  induction xs with
  | nil =>
    simp only [releaseGt, List.length_nil, List.replicate_zero]
    constructor
    · intro h; cases h
    · intro h; cases h
  | cons a as ih =>
    rw [List.length_cons, List.replicate_succ]
    rw [lex_cons_cons_iff]
    simp only [releaseGt, Bool.or_eq_true, decide_eq_true_eq]
    constructor
    · rintro (h | h)
      · exact Or.inl h
      · rcases Nat.eq_zero_or_pos a with ha | ha
        · exact Or.inr ⟨ha.symm, ih.mp h⟩
        · exact Or.inl ha
    · rintro (h | ⟨_, h⟩)
      · exact Or.inl h
      · exact Or.inr (ih.mpr h)

theorem releaseGt_iff (x : List Nat) :
    ∀ y, releaseGt x y = true ↔ specCompWiseGreater x y := by
  induction x with
  | nil =>
    intro y
    cases y with
    | nil =>
      simp only [releaseGt, specCompWiseGreater]
      constructor
      · intro h; cases h
      · intro h
        simp only [List.length_nil, Nat.max_self, Nat.sub_self,
          List.replicate_zero, List.append_nil] at h
        cases h
    | cons b bs =>
      simp only [releaseGt, specCompWiseGreater]
      constructor
      · intro h; cases h
      · intro h
        have hn : max ([] : List Nat).length (b :: bs).length = (b :: bs).length := by
          simp
        rw [hn, Nat.sub_self, List.replicate_zero, List.append_nil,
          List.nil_append] at h
        exact absurd h (not_lex_self_zeros (b :: bs))
  | cons a as ih =>
    intro y
    cases y with
    | nil =>
      have hn : max (a :: as).length ([] : List Nat).length
          = (a :: as).length := by simp
      simp only [specCompWiseGreater, hn, Nat.sub_self, List.replicate_zero,
        List.append_nil, List.nil_append, Nat.sub_zero]
      exact releaseGt_nil_iff (a :: as)
    | cons b bs =>
      have harith1 : max (a :: as).length (b :: bs).length - (b :: bs).length
          = max as.length bs.length - bs.length := by
        simp only [List.length_cons]
        omega
      have harith2 : max (a :: as).length (b :: bs).length - (a :: as).length
          = max as.length bs.length - as.length := by
        simp only [List.length_cons]
        omega
      simp only [specCompWiseGreater, harith1, harith2, List.cons_append]
      rw [lex_cons_cons_iff]
      show (if a > b then true else if a < b then false else releaseGt as bs)
          = true ↔ _
      rcases Nat.lt_trichotomy a b with hab | hab | hab
      · rw [if_neg (by omega), if_pos hab]
        constructor
        · intro h; cases h
        · rintro (h | ⟨h, _⟩) <;> omega
      · subst hab
        rw [if_neg (by omega), if_neg (by omega)]
        rw [ih bs]
        unfold specCompWiseGreater
        constructor
        · intro h; exact Or.inr ⟨rfl, h⟩
        · rintro (h | ⟨_, h⟩)
          · omega
          · exact h
      · rw [if_pos hab]
        constructor
        · intro _; exact Or.inl hab
        · intro _; rfl

instance instDecidableSpecCompWiseGreater (x y : List Nat) :
    Decidable (specCompWiseGreater x y) := by
  unfold specCompWiseGreater
  exact List.Lex.decidableRel _ _ _

/-- Claim C4 (confirmed): when both version strings parse as dotted
numeric versions, `_is_newer_version(available, installed)` returns
true exactly when the parsed available version is component-wise
numerically greater than the parsed installed version; when parsing
either string raises, it returns the lexicographic string comparison
`available > installed`; it is a total function, so it never raises. -/
theorem c4_version_comparison (a b : String) :
    (∀ x y, parse_version a = some x → parse_version b = some y →
      (is_newer_version a b = true ↔ specCompWiseGreater x y))
    ∧ ((parse_version a = none ∨ parse_version b = none) →
        is_newer_version a b = pyStrGt a b) := by
  constructor
  · intro x y hx hy
    rw [is_newer_version, hx, hy]
    exact releaseGt_iff x y
  · intro h
    rcases h with h | h
    · cases hb : parse_version b <;> rw [is_newer_version, h, hb]
    · cases ha : parse_version a <;> rw [is_newer_version, h, ha]

/-- Witness for claim C4: a numerically newer pair and an unparseable
pair falling back to string comparison. -/
theorem c4_version_comparison_witness :
    is_newer_version "1.2.10" "1.2.9" = true
    ∧ is_newer_version "banana" "1.0" = pyStrGt "banana" "1.0" := by
  constructor
  · exact ((c4_version_comparison "1.2.10" "1.2.9").1 [1, 2, 10] [1, 2, 9]
      (by decide) (by decide)).mpr (by decide)
  · exact (c4_version_comparison "banana" "1.0").2 (Or.inl (by decide))

/-! ## Claims C6, C7, C8, C9, C10 -/

/-- Claim C6 (confirmed): when installed plugins are incompatible or
deprecated, `_on_apply_changes` offers a three-way choice per
conflict class before emitting `apply_changes`: answering archive
(Yes) puts those plugin names into the emitted archive list, answering
keep (No) excludes them while the batch still proceeds, and answering
cancel returns without emitting `apply_changes` at all; in
particular, with one incompatible `pluginA` and answer keep, the
emitted archive list is empty and the batch proceeds. -/
theorem c6_conflict_three_way_choice (installed : List InstalledPlugin) :
    on_apply_changes installed ConflictAnswer.yes ConflictAnswer.yes
        = some (get_incompatible_plugin_names installed
            ++ get_deprecated_plugin_names installed)
    ∧ on_apply_changes installed ConflictAnswer.no ConflictAnswer.no
        = some []
    ∧ (get_incompatible_plugin_names installed ≠ [] →
        ∀ aD, on_apply_changes installed ConflictAnswer.cancel aD = none)
    ∧ (get_deprecated_plugin_names installed ≠ [] →
        ∀ aI, on_apply_changes installed aI ConflictAnswer.cancel = none)
    ∧ (∀ aD, on_apply_changes
        [{ name := "pluginA", version := "1.0.0",
           incompatible := true, deprecated := false }]
        ConflictAnswer.no aD = some []) := by
  refine ⟨?_, ?_, ?_, ?_, ?_⟩
  · by_cases hI : (get_incompatible_plugin_names installed).isEmpty <;>
      by_cases hD : (get_deprecated_plugin_names installed).isEmpty <;>
      simp [on_apply_changes, resolveConflict, hI, hD]
  · by_cases hI : (get_incompatible_plugin_names installed).isEmpty <;>
      by_cases hD : (get_deprecated_plugin_names installed).isEmpty <;>
      simp_all [on_apply_changes, resolveConflict, List.isEmpty_iff]
  · intro h aD
    have hI : (get_incompatible_plugin_names installed).isEmpty = false := by
      simpa [List.isEmpty_iff] using h
    simp [on_apply_changes, resolveConflict, hI]
  · intro h aI
    have hD : (get_deprecated_plugin_names installed).isEmpty = false := by
      simpa [List.isEmpty_iff] using h
    cases aI <;>
      by_cases hI : (get_incompatible_plugin_names installed).isEmpty <;>
      simp [on_apply_changes, resolveConflict, hI, hD]
  · intro aD
    cases aD <;> decide

/-- Witness for claim C6 at a concrete installed set: one
incompatible and one deprecated plugin. -/
theorem c6_conflict_three_way_choice_witness :
    on_apply_changes
      [{ name := "pluginA", version := "1.0.0",
         incompatible := true, deprecated := false },
       { name := "pluginB", version := "2.0.0",
         incompatible := false, deprecated := true }]
      ConflictAnswer.cancel ConflictAnswer.yes = none
    ∧ on_apply_changes
      [{ name := "pluginA", version := "1.0.0",
         incompatible := true, deprecated := false },
       { name := "pluginB", version := "2.0.0",
         incompatible := false, deprecated := true }]
      ConflictAnswer.yes ConflictAnswer.cancel = none
    ∧ on_apply_changes
      [{ name := "pluginA", version := "1.0.0",
         incompatible := true, deprecated := false }]
      ConflictAnswer.no ConflictAnswer.no = some [] := by
  refine ⟨?_, ?_, ?_⟩
  · exact (c6_conflict_three_way_choice _).2.2.1 (by decide) ConflictAnswer.yes
  · exact (c6_conflict_three_way_choice _).2.2.2.1 (by decide) ConflictAnswer.yes
  · exact (c6_conflict_three_way_choice _).2.1

/-- Claim C7 (confirmed): after the auto-processing batch, the
restart-required summary is shown exactly when `processed_count > 0`,
`requestConnectRestart` is emitted exactly when the summary was shown
and the user answered Yes (so never without confirmation and never
with zero processed entries), and the processed count equals the
number of selected entries since each entry is counted before
processing and failures are contained. -/
theorem c7_restart_summary_iff_processed (selected : List Bool)
    (answerYes : Bool) :
    (autoInstallFlow selected answerYes).summaryShown
      = decide ((autoInstallFlow selected answerYes).processedCount > 0)
    ∧ (autoInstallFlow selected answerYes).restartEmitted
      = ((autoInstallFlow selected answerYes).summaryShown && answerYes)
    ∧ (autoInstallFlow selected answerYes).processedCount
      = selected.length := by
  have hc : autoProcessedCount selected 0 = selected.length := by
    simpa using autoProcessedCount_eq selected 0
  by_cases h : selected.length = 0 <;>
    simp [autoInstallFlow, h, hc]

/-- Claim C8 (confirmed): an exception raised while checking for a
Connect self-update at startup is swallowed by the handler in
`main_connect`: startup continues with no update dialog pending, which
is exactly the behaviour of a successful check reporting
`has_update = false`. -/
theorem c8_update_check_fails_soft (skip_version_check silent : Bool)
    (e : String) (info : UpdateInfo) (h : info.has_update = false) :
    startupUpdateCheck skip_version_check silent (Except.error e) = none
    ∧ startupUpdateCheck skip_version_check silent (Except.error e)
      = startupUpdateCheck skip_version_check silent (Except.ok info) := by
  constructor
  · by_cases hs : skip_version_check <;> simp [startupUpdateCheck, hs]
  · by_cases hs : skip_version_check <;> simp [startupUpdateCheck, hs, h]

/-- Witness for claim C8 at a concrete failed check. -/
theorem c8_update_check_fails_soft_witness :
    startupUpdateCheck false false (Except.error "connection error") = none
    ∧ startupUpdateCheck false false (Except.error "connection error")
      = startupUpdateCheck false false
          (Except.ok { has_update := false, message := "up to date" }) :=
  c8_update_check_fails_soft false false "connection error"
    { has_update := false, message := "up to date" } rfl

/-- Lookup after `envSet` at the written key gives the new value. -/
theorem envLookup_envSet_self (env : List (String × String))
    (key value : String) :
    envLookup (envSet env key value) key = some value := by
  induction env with
  | nil => simp [envSet, envLookup]
  | cons kv rest ih =>
    by_cases h : kv.1 = key <;> simp [envSet, envLookup, h, ih]

/-- Lookup after `envSet` at any other key is unchanged. -/
theorem envLookup_envSet_other (env : List (String × String))
    (key value k2 : String) (h : k2 ≠ key) :
    envLookup (envSet env key value) k2 = envLookup env k2 := by
  induction env with
  | nil => simp [envSet, envLookup, Ne.symm h]
  | cons kv rest ih =>
    by_cases hk : kv.1 = key
    · subst hk
      simp [envSet, envLookup, Ne.symm h]
    · simp [envSet, envLookup, hk, ih]

/-- Claim C9 (confirmed): `append_path(p, k, env)` sets `env[k]` to
`p` when `k` was absent, and to the previous value joined with `p` by
the path separator when present; every other key's binding is
unchanged. -/
theorem c9_append_path_spec (sep path key : String)
    (env : List (String × String)) :
    (envLookup env key = none →
      envLookup (append_path sep path key env) key = some path)
    ∧ (∀ old, envLookup env key = some old →
        envLookup (append_path sep path key env) key
          = some (old ++ sep ++ path))
    ∧ (∀ k2, k2 ≠ key →
        envLookup (append_path sep path key env) k2 = envLookup env k2) := by
  refine ⟨?_, ?_, ?_⟩
  · intro h
    simp [append_path, h, envLookup_envSet_self]
  · intro old h
    simp [append_path, h, envLookup_envSet_self]
  · intro k2 h
    unfold append_path
    cases envLookup env key <;>
      simp [envLookup_envSet_other _ _ _ _ h]

/-- Witness for claim C9 at a concrete environment: an existing key,
a fresh key and an untouched key. -/
theorem c9_append_path_spec_witness :
    envLookup (append_path ":" "/loc" "PYTHONPATH"
      [("PATH", "/bin"), ("PYTHONPATH", "/a")]) "PYTHONPATH"
      = some "/a:/loc"
    ∧ envLookup (append_path ":" "/loc" "NEW_KEY"
        [("PATH", "/bin")]) "NEW_KEY" = some "/loc"
    ∧ envLookup (append_path ":" "/loc" "PYTHONPATH"
        [("PATH", "/bin"), ("PYTHONPATH", "/a")]) "PATH"
      = envLookup [("PATH", "/bin"), ("PYTHONPATH", "/a")] "PATH" := by
  refine ⟨?_, ?_, ?_⟩
  · exact (c9_append_path_spec ":" "/loc" "PYTHONPATH"
      [("PATH", "/bin"), ("PYTHONPATH", "/a")]).2.1 "/a" rfl
  · exact (c9_append_path_spec ":" "/loc" "NEW_KEY"
      [("PATH", "/bin")]).1 rfl
  · exact (c9_append_path_spec ":" "/loc" "PYTHONPATH"
      [("PATH", "/bin"), ("PYTHONPATH", "/a")]).2.2 "PATH" (by decide)

/-- Claim C10 (confirmed): for every plugin-model state and flag pair,
`_count_plugins_to_process` returns exactly the length of the
`plugins_to_process` list that `_on_auto_install_update_callback`
builds under the same flags, and that list selects exactly the NEW
entries when installing, the UPDATE entries when updating, and the
DOWNLOAD entries when installing. -/
theorem c10_count_matches_selection (installed : List InstalledPlugin)
    (items : List PluginItem) (do_install do_update : Bool) :
    count_plugins_to_process items do_install do_update
      = (plugins_to_process installed items do_install do_update).length
    ∧ (plugins_to_process installed items do_install do_update).map
        (fun e => e.item)
      = items.filter (fun item =>
          (item.status == PStatus.NEW && do_install)
          || (item.status == PStatus.UPDATE && do_update)
          || (item.status == PStatus.DOWNLOAD && do_install)) := by
  induction items with
  | nil => exact ⟨rfl, rfl⟩
  | cons item rest ih =>
    obtain ⟨ih1, ih2⟩ := ih
    constructor
    · cases hs : item.status <;> cases do_install <;> cases do_update <;>
        simp [count_plugins_to_process, plugins_to_process, hs, ih1] <;>
        omega
    · cases hs : item.status <;> cases do_install <;> cases do_update <;>
        simp [plugins_to_process, hs, ih2, List.filter_cons]

/-! ## Split and join lemmas for claim C5 -/

theorem splitOnChar_ne_nil (sep : Char) (l : List Char) :
    splitOnChar sep l ≠ [] := by
  induction l with
  | nil => simp [splitOnChar]
  | cons c rest ih =>
    by_cases h : c = sep
    · simp [splitOnChar, h]
    · simp only [splitOnChar, if_neg h]
      cases hs : splitOnChar sep rest with
      | nil => simp
      | cons seg segs => simp

theorem not_mem_of_mem_splitOnChar (sep : Char) (l : List Char) :
    ∀ seg ∈ splitOnChar sep l, sep ∉ seg := by
  induction l with
  | nil =>
    intro seg hseg
    simp only [splitOnChar, List.mem_singleton] at hseg
    subst hseg
    simp
  | cons c rest ih =>
    intro seg hseg
    by_cases h : c = sep
    · simp only [splitOnChar, if_pos h, List.mem_cons] at hseg
      rcases hseg with h1 | h1
      · subst h1; simp
      · exact ih seg h1
    · simp only [splitOnChar, if_neg h] at hseg
      cases hs : splitOnChar sep rest with
      | nil => exact absurd hs (splitOnChar_ne_nil sep rest)
      | cons s0 ss =>
        rw [hs] at hseg
        rcases List.mem_cons.mp hseg with h1 | h1
        · subst h1
          intro hmem
          rcases List.mem_cons.mp hmem with h2 | h2
          · exact h h2.symm
          · exact ih s0 (by rw [hs]; exact List.mem_cons_self s0 ss) h2
        · exact ih seg (by rw [hs]; exact List.mem_cons_of_mem s0 h1)

theorem splitOnChar_of_not_mem (sep : Char) (x : List Char)
    (h : sep ∉ x) : splitOnChar sep x = [x] := by
  induction x with
  | nil => rfl
  | cons c rest ih =>
    simp only [List.mem_cons, not_or] at h
    have hcs : ¬ c = sep := fun hc => h.1 hc.symm
    simp only [splitOnChar, if_neg hcs, ih h.2]

theorem splitOnChar_append_sep (sep : Char) (x t : List Char)
    (h : sep ∉ x) :
    splitOnChar sep (x ++ sep :: t) = x :: splitOnChar sep t := by
  induction x with
  | nil => simp [splitOnChar]
  | cons c rest ih =>
    simp only [List.mem_cons, not_or] at h
    have hcs : ¬ c = sep := fun hc => h.1 hc.symm
    simp only [List.cons_append, splitOnChar, if_neg hcs, List.append_eq,
      ih h.2]

theorem splitOnChar_joinChar (sep : Char) (ls : List (List Char))
    (hne : ls ≠ []) (h : ∀ seg ∈ ls, sep ∉ seg) :
    splitOnChar sep (joinChar sep ls) = ls := by
  induction ls with
  | nil => exact absurd rfl hne
  | cons x rest ih =>
    cases rest with
    | nil =>
      simpa [joinChar] using splitOnChar_of_not_mem sep x (h x (by simp))
    | cons y ys =>
      have hj : joinChar sep (x :: y :: ys)
          = x ++ sep :: joinChar sep (y :: ys) := rfl
      rw [hj, splitOnChar_append_sep sep x _ (h x (by simp))]
      rw [ih (by simp) (fun seg hs => h seg (List.mem_cons_of_mem x hs))]

/-! ## Claim C5 -/

/-- Input of end-to-end scenario D: an image markdown line followed
by a 150-character paragraph. -/
def scenarioDInput : List Char :=
  "![screenshot](screen.png)".toList ++ '\n' :: List.replicate 150 'z'

set_option maxRecDepth 40000 in
/-- Claim C5 (confirmed): the release-notes reduction produces at most
five bullet lines; stripped lines prefixed by a list marker with
non-empty content are extracted verbatim as bullets; header lines and
lines starting with image or link markdown are dropped; non-list
lines of length at least 100 characters are dropped; when the main
extraction yields nothing the keyword fallback runs, and when that is
also empty the fixed generic text is returned; on the scenario-D
input the result is the generic three-line fallback verbatim. -/
theorem c5_release_notes_reduction :
    (∀ notes, (splitOnChar '\n' (format_release_notes notes)).length ≤ 5)
    ∧ (∀ raw t,
        (pstrip raw = '-' :: ' ' :: t ∨ pstrip raw = '*' :: ' ' :: t) →
        (pstrip t).isEmpty = false →
        bullet_of_line raw = some ('•' :: ' ' :: pstrip t))
    ∧ (∀ raw rest,
        (pstrip raw = '#' :: rest ∨ pstrip raw = '!' :: '[' :: rest
          ∨ pstrip raw = '[' :: rest) →
        bullet_of_line raw = none)
    ∧ (∀ raw, startsWithL ['-', ' '] (pstrip raw) = false →
        startsWithL ['*', ' '] (pstrip raw) = false →
        100 ≤ (pstrip raw).length → bullet_of_line raw = none)
    ∧ (∀ notes,
        (splitOnChar '\n' (pstrip notes)).filterMap bullet_of_line = [] →
        (splitOnChar '\n' (pstrip notes)).filterMap fallback_bullet_of_line
          ≠ [] →
        parse_markdown_to_bullets notes
          = joinChar '\n'
              (((splitOnChar '\n' (pstrip notes)).filterMap
                  fallback_bullet_of_line).take 5))
    ∧ (∀ notes,
        (splitOnChar '\n' (pstrip notes)).filterMap bullet_of_line = [] →
        (splitOnChar '\n' (pstrip notes)).filterMap fallback_bullet_of_line
          = [] →
        parse_markdown_to_bullets notes = genericBullets3)
    ∧ format_release_notes scenarioDInput = genericBullets3 := by
  refine ⟨?_, ?_, ?_, ?_, ?_, ?_, ?_⟩
  · intro notes
    unfold format_release_notes
    by_cases h0 : (pstrip notes).isEmpty = true
    · rw [if_pos h0]
      decide
    · rw [if_neg h0]
      dsimp only
      have hnn := splitOnChar_ne_nil '\n' (parse_markdown_to_bullets notes)
      have hfree :=
        not_mem_of_mem_splitOnChar '\n' (parse_markdown_to_bullets notes)
      by_cases h5 :
          (splitOnChar '\n' (parse_markdown_to_bullets notes)).length > 5
      · rw [if_pos h5]
        rw [splitOnChar_joinChar '\n' _ (by simp) ?_]
        · simp only [List.length_append, List.length_take,
            List.length_singleton]
          omega
        · intro seg hs
          rcases List.mem_append.mp hs with h1 | h1
          · exact hfree seg (List.take_subset 4 _ h1)
          · rw [List.mem_singleton.mp h1]
            decide
      · rw [if_neg h5]
        rw [splitOnChar_joinChar '\n' _ hnn hfree]
        omega
  · intro raw t h hne
    rcases h with h | h <;>
      simp [bullet_of_line, h, startsWithL, List.isPrefixOf, hne]
  · intro raw rest h
    rcases h with h | h | h <;>
      simp [bullet_of_line, h, startsWithL, List.isPrefixOf]
  · intro raw h1 h2 hlen
    simp only [bullet_of_line, h1, h2, Bool.or_self]
    split
    · rfl
    split
    · rfl
    · simp only [Bool.false_eq_true, if_false]
      split
      · rfl
      split
      · rfl
      split
      · omega
      · rfl
  · intro notes hmain hfb
    simp [parse_markdown_to_bullets, hmain, List.isEmpty_iff, hfb]
  · intro notes hmain hfb
    simp [parse_markdown_to_bullets, hmain, List.isEmpty_iff, hfb]
  · decide

set_option maxRecDepth 40000 in
/-- Witness for claim C5: a list-item line, a header line, an
image line, a long line, a keyword-fallback input and the
scenario-D input. -/
theorem c5_release_notes_reduction_witness :
    bullet_of_line ("- Fixed bug".toList)
      = some ('•' :: ' ' :: pstrip ("Fixed bug".toList))
    ∧ bullet_of_line ("# Header".toList) = none
    ∧ bullet_of_line (List.replicate 150 'z') = none
    ∧ parse_markdown_to_bullets ("# Fixes update".toList)
      = joinChar '\n'
          (((splitOnChar '\n' (pstrip ("# Fixes update".toList))).filterMap
              fallback_bullet_of_line).take 5)
    ∧ parse_markdown_to_bullets scenarioDInput = genericBullets3 := by
  refine ⟨?_, ?_, ?_, ?_, ?_⟩
  · exact c5_release_notes_reduction.2.1 ("- Fixed bug".toList)
      ("Fixed bug".toList) (Or.inl (by decide)) (by decide)
  · exact c5_release_notes_reduction.2.2.1 ("# Header".toList)
      (" Header".toList) (Or.inl (by decide))
  · exact c5_release_notes_reduction.2.2.2.1 (List.replicate 150 'z')
      (by decide) (by decide) (by decide)
  · exact c5_release_notes_reduction.2.2.2.2.1 ("# Fixes update".toList)
      (by decide) (by decide)
  · exact c5_release_notes_reduction.2.2.2.2.2.1 scenarioDInput
      (by decide) (by decide)

end Integrations
